import Mathlib

/-!
Verification of the CodeReview backend's analysis pipeline.

Shallow embedding of the TypeScript services:
  - `AnalysisService` (per-file reviewer, batch loop, aggregation engine,
    risk level, summary generation);
  - `GitHubIssuesService` (issue relevance scoring, issue prioritisation).

Conventions of the embedding:
  - JavaScript numbers are modelled as `Int` (all values produced here are
    integers) and intermediate floating-point arithmetic as `ℚ`;
    `Math.round` is `jsRound` (round half toward positive infinity,
    `Math.round x = ⌊x + 1/2⌋`), `Math.max(0, ·)` is `max 0 ·`.
  - JavaScript strings are modelled as `String`; `String.prototype.includes`
    is `jsIncludes`, `toLowerCase` is `jsToLower` (ASCII case mapping),
    `split('\n')` is `jsSplit`, `join('\n')` is `jsJoin`.  These are defined
    over the underlying character lists by structural recursion so that they
    evaluate inside the kernel.
  - `Array.prototype.sort` with a comparator is a stable sort; a stable sort
    is extensionally unique, so it is modelled by `List.insertionSort`
    (which is stable) with the corresponding order.
  - Fallible operations return `Option`; the OpenAI completion call and the
    JSON parser are external capabilities and enter the model as explicit
    data (`CompletionOutcome`) and an explicit parse function.
-/

/-- Enumerations of the data model (`analysisService.ts`). -/
inductive Complexity where
  | low | medium | high
deriving DecidableEq

inductive Severity where
  | low | medium | high | critical
deriving DecidableEq

inductive IssueType where
  | security | performance | quality | style | bug
deriving DecidableEq

inductive RiskLevel where
  | low | medium | high | critical
deriving DecidableEq

inductive IssuePriority where
  | low | medium | high | critical
deriving DecidableEq

inductive IssueState where
  | open | closed
deriving DecidableEq

/-- Embeds the `Issue` interface of `analysisService.ts`: one finding inside a
file verdict (optional line, type, severity, message, suggested fix). -/
structure Issue where
  line : Option Nat
  type : IssueType
  severity : Severity
  message : String
  suggestion : String
deriving DecidableEq

/-- Embeds the `FileAnalysis` interface: the per-file verdict. -/
structure FileAnalysis where
  filePath : String
  score : Int
  issues : List Issue
  suggestions : List String
  complexity : Complexity
  maintainability : Int
deriving DecidableEq

/-- Embeds the `CodeFile` interface of `gitService.ts`. -/
structure CodeFile where
  filePath : String
  relativePath : String
  content : String
  extension : String
  size : Nat
deriving DecidableEq

/-- Embeds the `GitHubComment` interface of `issuesService.ts`. -/
structure GitHubComment where
  id : Nat
  body : String
  author : String
  createdAt : String
deriving DecidableEq

/-- Embeds the `GitHubIssue` interface of `issuesService.ts`. -/
structure GitHubIssue where
  id : Nat
  number : Nat
  title : String
  body : String
  state : IssueState
  labels : List String
  createdAt : String
  updatedAt : String
  author : String
  url : String
  comments : List GitHubComment
deriving DecidableEq

/-! ## JavaScript string primitives over character lists -/

/-- Decides whether the first list is a prefix of the second
(`List.IsPrefix`, restated by structural recursion so it evaluates). -/
def startsWithChars : List Char → List Char → Bool
  | [], _ => true
  | _ :: _, [] => false
  | a :: as, b :: bs => a == b && startsWithChars as bs

/-- Decides whether the first list occurs as a contiguous substring of the
second. -/
def containsChars (t : List Char) : List Char → Bool
  | [] => startsWithChars t []
  | c :: rest => startsWithChars t (c :: rest) || containsChars t rest

/-- Models `s.includes(needle)` from JavaScript. -/
def jsIncludes (s needle : String) : Bool :=
  containsChars needle.data s.data

/-- Models `s.toLowerCase()` (ASCII case mapping, which is all the source's
signal keywords need). -/
def jsToLower (s : String) : String :=
  String.mk (s.data.map Char.toLower)

/-- Models `content.split('\n')` on the character level: splitting at every
newline, keeping empty segments, with `[[]]` for the empty string — exactly
JavaScript's single-character `split`. -/
def splitLinesChars : List Char → List (List Char)
  | [] => [[]]
  | c :: rest =>
    let r := splitLinesChars rest
    if c = '\n' then [] :: r
    else
      match r with
      | [] => [[c]]
      | l :: ls => (c :: l) :: ls

/-- Models `content.split('\n')`. -/
def jsSplit (s : String) : List String :=
  (splitLinesChars s.data).map String.mk

/-- Models `lines.join('\n')` on the character level. -/
def joinLinesChars : List (List Char) → List Char
  | [] => []
  | [l] => l
  | l :: ls => l ++ '\n' :: joinLinesChars ls

/-- Models `lines.join('\n')`. -/
def jsJoin (ls : List String) : String :=
  String.mk (joinLinesChars (ls.map String.data))

/-- Models `Math.round`: rounds to the nearest integer, halves toward
positive infinity (`Math.round x = ⌊x + 1/2⌋`). -/
def jsRound (q : ℚ) : ℤ :=
  ⌊q + 1 / 2⌋

/-! ## Per-File Reviewer (`AnalysisService.analyzeFile`) -/

/-- Models the JSON object parsed from the reviewer response
(`JSON.parse(content)` in `analyzeFile`): every schema field may be absent. -/
structure ParsedAnalysis where
  score : Option Int
  issues : Option (List Issue)
  suggestions : Option (List String)
  complexity : Option Complexity
  maintainability : Option Int
deriving DecidableEq

/-- Models the outcome of the `openai.chat.completions.create` call:
either the call threw, or it returned `choices[0]?.message?.content`
(possibly absent). -/
inductive CompletionOutcome where
  | apiError
  | response (content : Option String)
deriving DecidableEq

/-- Models JavaScript `x || d` for a possibly-absent number field: `0` is
falsy, so both an absent field and an explicit `0` yield the default. -/
def jsOrInt (v : Option Int) (d : Int) : Int :=
  match v with
  | none => d
  | some x => if x = 0 then d else x

/-- Embeds the fallback verdict returned by the `catch` branch of
`AnalysisService.analyzeFile`. -/
def fallbackAnalysis (relativePath : String) : FileAnalysis :=
  { filePath := relativePath
    score := 60
    issues := [{ line := none
                 type := IssueType.quality
                 severity := Severity.medium
                 message := "Unable to analyze this file automatically"
                 suggestion := "Manual review recommended" }]
    suggestions := ["Review this file manually for potential improvements"]
    complexity := Complexity.medium
    maintainability := 60 }

/-- Embeds `AnalysisService.analyzeFile`.  The completion call is an external
capability, so its outcome is an explicit argument, as is the JSON parser
(`parse c = none` models `JSON.parse` throwing).  The source's `try`/`catch`
spans the call, the empty-content check (`if (!content) throw`, where the
empty string is falsy) and the parse; every caught error produces
`fallbackAnalysis`.  On a successful parse, missing fields default via
JavaScript truthiness: `score`/`maintainability` via `|| 70` (`jsOrInt`),
`issues` via `|| []`, `suggestions` via `|| []`, `complexity` via
`|| 'medium'`. -/
def analyzeFile (parse : String → Option ParsedAnalysis) (file : CodeFile)
    (outcome : CompletionOutcome) : FileAnalysis :=
  match outcome with
  | CompletionOutcome.apiError => fallbackAnalysis file.relativePath
  | CompletionOutcome.response content =>
    match content with
    | none => fallbackAnalysis file.relativePath
    | some c =>
      if c = "" then fallbackAnalysis file.relativePath
      else
        match parse c with
        | none => fallbackAnalysis file.relativePath
        | some a =>
          { filePath := file.relativePath
            score := jsOrInt a.score 70
            issues := a.issues.getD []
            suggestions := a.suggestions.getD []
            complexity := a.complexity.getD Complexity.medium
            maintainability := jsOrInt a.maintainability 70 }

/-! ## Truncation policy (`AnalysisService.truncateContent`) -/

/-- Embeds the elision marker inserted by `truncateContent` (note it carries
its own leading and trailing newline, exactly as in the source). -/
def truncationMarker : String :=
  "\n// ... (content truncated for analysis) ...\n"

/-- Embeds `AnalysisService.truncateContent`: at most 200 lines pass through
unchanged; otherwise the first 150 lines, the marker, and the last 50 lines
(`lines.slice(-50)`, i.e. `drop (length - 50)`) are joined with newlines. -/
def truncateContent (content : String) : String :=
  let lines := jsSplit content
  if lines.length ≤ 200 then content
  else jsJoin (lines.take 150 ++ [truncationMarker] ++ lines.drop (lines.length - 50))

/-! ## Batch Scheduler (`AnalysisService.analyzeRepository`) -/

/-- Embeds the `maxFilesPerBatch` constant of `AnalysisService`. -/
def maxFilesPerBatch : Nat := 5

/-- Embeds the batch loop of `AnalysisService.analyzeRepository`
(`for (let i = 0; i < files.length; i += 5)`): each iteration maps the
per-file processor over `slice(i, i+5)`, appends the results, and sleeps
once more whenever `i + 5 < files.length`.  The loop is rendered as
recursion on `drop 5`; the second component counts the inter-batch delays.
The per-item processor is a parameter: inside one batch the source issues
the calls concurrently but `Promise.all` returns results in input order,
so the batch result is exactly `batch.map f`. -/
def analyzeRepository (f : CodeFile → FileAnalysis) (files : List CodeFile) :
    List FileAnalysis × Nat :=
  if h : files.length ≤ maxFilesPerBatch then (files.map f, 0)
  else
    let rest := analyzeRepository f (files.drop maxFilesPerBatch)
    ((files.take maxFilesPerBatch).map f ++ rest.1, rest.2 + 1)
termination_by files.length
decreasing_by
  simp only [List.length_drop, maxFilesPerBatch] at h ⊢
  omega

/-! ## Aggregation Engine (`AnalysisService.calculateCategoryScores` etc.) -/

/-- Embeds one `CategoryScore` record of the final report. -/
structure CategoryScore where
  score : Int
  issues : Nat
  criticalIssues : Nat
  suggestions : List String
  details : List String
deriving DecidableEq

/-- Embeds the `categories` object of the final report. -/
structure Categories where
  codeQuality : CategoryScore
  security : CategoryScore
  performance : CategoryScore
  maintainability : CategoryScore
deriving DecidableEq

/-- Embeds the `severityWeights` table of `calculateScore`
(`{low: 1, medium: 3, high: 7, critical: 15}`). -/
def severityWeight : Severity → Nat
  | Severity.low => 1
  | Severity.medium => 3
  | Severity.high => 7
  | Severity.critical => 15

/-- Embeds `issues.reduce((sum, issue) => sum + severityWeights[issue.severity], 0)`. -/
def totalSeverityWeight (issues : List Issue) : Nat :=
  issues.foldl (fun s i => s + severityWeight i.severity) 0

/-- Embeds the inner `calculateScore` closure of `calculateCategoryScores`:
an empty bucket scores 85; otherwise
`Math.max(0, Math.round(100 - (totalWeight / (analyses.length * 5)) * 100))`. -/
def calculateScore (analyses : List FileAnalysis) (issues : List Issue) : Int :=
  if issues.isEmpty then 85
  else
    let totalWeight := totalSeverityWeight issues
    let maxPossibleWeight := analyses.length * 5
    max 0 (jsRound (100 - ((totalWeight : ℚ) / (maxPossibleWeight : ℚ)) * 100))

/-- Embeds the `categoryIssues.security` pool:
`analyses.flatMap(a => a.issues.filter(i => i.type === 'security'))`. -/
def securityBucket (analyses : List FileAnalysis) : List Issue :=
  (analyses.map (fun a => a.issues.filter (fun i => decide (i.type = IssueType.security)))).flatten

/-- Embeds the `categoryIssues.performance` pool. -/
def performanceBucket (analyses : List FileAnalysis) : List Issue :=
  (analyses.map (fun a => a.issues.filter (fun i => decide (i.type = IssueType.performance)))).flatten

/-- Embeds the `categoryIssues.quality` pool (type `quality` or `bug`). -/
def qualityBucket (analyses : List FileAnalysis) : List Issue :=
  (analyses.map (fun a => a.issues.filter
    (fun i => decide (i.type = IssueType.quality ∨ i.type = IssueType.bug)))).flatten

/-- Embeds the `categoryIssues.style` pool. -/
def styleBucket (analyses : List FileAnalysis) : List Issue :=
  (analyses.map (fun a => a.issues.filter (fun i => decide (i.type = IssueType.style)))).flatten

/-- Inserts one suggestion occurrence into the insertion-ordered count list,
modelling `suggestionCounts.set(s, (suggestionCounts.get(s) || 0) + 1)` on a
JavaScript `Map` (which preserves first-insertion order). -/
def bumpCount : List (String × Nat) → String → List (String × Nat)
  | [], s => [(s, 1)]
  | (k, n) :: rest, s => if k = s then (k, n + 1) :: rest else (k, n) :: bumpCount rest s

/-- Embeds the occurrence-count pass of `getTopSuggestions`. -/
def suggestionCounts (issues : List Issue) : List (String × Nat) :=
  issues.foldl (fun acc i => bumpCount acc i.suggestion) []

/-- Embeds `AnalysisService.getTopSuggestions`: sort the (insertion-ordered)
counts descending with a stable sort (`Array.from(map.entries()).sort((a, b)
=> b[1] - a[1])`), keep 3, return the suggestion texts. -/
def getTopSuggestions (issues : List Issue) : List String :=
  ((List.insertionSort (fun a b => b.2 ≤ a.2) (suggestionCounts issues)).take 3).map Prod.fst

/-- Embeds `AnalysisService.calculateCategoryScores`. -/
def calculateCategoryScores (analyses : List FileAnalysis) : Categories :=
  let quality := qualityBucket analyses
  let security := securityBucket analyses
  let performance := performanceBucket analyses
  let style := styleBucket analyses
  { codeQuality :=
      { score := calculateScore analyses quality
        issues := quality.length
        criticalIssues := (quality.filter (fun i => decide (i.severity = Severity.critical))).length
        suggestions := getTopSuggestions quality
        details := (quality.take 5).map (fun i => i.message) }
    security :=
      { score := calculateScore analyses security
        issues := security.length
        criticalIssues := (security.filter (fun i => decide (i.severity = Severity.critical))).length
        suggestions := getTopSuggestions security
        details := (security.take 5).map (fun i => i.message) }
    performance :=
      { score := calculateScore analyses performance
        issues := performance.length
        criticalIssues := (performance.filter (fun i => decide (i.severity = Severity.critical))).length
        suggestions := getTopSuggestions performance
        details := (performance.take 5).map (fun i => i.message) }
    maintainability :=
      { score := jsRound
          (((analyses.foldl (fun s a => s + a.maintainability) 0 : Int) : ℚ) /
            (analyses.length : ℚ))
        issues := style.length
        criticalIssues := 0
        suggestions := getTopSuggestions style
        details := (style.take 5).map (fun i => i.message) } }

/-- Embeds `AnalysisService.calculateOverallScore` with the fixed weights
`security 0.3, codeQuality 0.25, performance 0.25, maintainability 0.2`. -/
def calculateOverallScore (categories : Categories) : Int :=
  jsRound ((categories.security.score : ℚ) * 0.3 +
    (categories.codeQuality.score : ℚ) * 0.25 +
    (categories.performance.score : ℚ) * 0.25 +
    (categories.maintainability.score : ℚ) * 0.2)

/-- Embeds `AnalysisService.determineRiskLevel`. -/
def determineRiskLevel (score : Int) (analyses : List FileAnalysis) : RiskLevel :=
  let criticalIssues :=
    (((analyses.map (fun a => a.issues)).flatten).filter
      (fun i => decide (i.severity = Severity.critical))).length
  if 0 < criticalIssues ∨ score < 40 then RiskLevel.critical
  else if score < 60 then RiskLevel.high
  else if score < 80 then RiskLevel.medium
  else RiskLevel.low

/-- Embeds the `recommendations` object of the final report. -/
structure Recommendations where
  immediate : List String
  shortTerm : List String
  longTerm : List String
deriving DecidableEq

/-- Embeds `AnalysisService.generateRecommendations` (the `categories`
argument is unused in the source as well). -/
def generateRecommendations (analyses : List FileAnalysis)
    (_categories : Categories) : Recommendations :=
  let allIssues := (analyses.map (fun a => a.issues)).flatten
  let criticalIssues := allIssues.filter (fun i => decide (i.severity = Severity.critical))
  let highIssues := allIssues.filter (fun i => decide (i.severity = Severity.high))
  { immediate :=
      (((criticalIssues.take 3).map (fun i => i.suggestion)) ++
        ((highIssues.take 2).map (fun i => i.suggestion))).filter (fun s => decide (s ≠ ""))
    shortTerm :=
      ["Implement automated testing if not present",
       "Set up continuous integration pipeline",
       "Add comprehensive error handling",
       "Improve code documentation",
       "Establish coding standards and linting rules"]
    longTerm :=
      ["Consider architectural improvements for scalability",
       "Implement monitoring and logging",
       "Regular security audits",
       "Performance optimization based on usage patterns",
       "Team code review processes"] }

/-- Embeds the `riskDescriptions` table of `generateSummary`. -/
def riskDescriptions : RiskLevel → String
  | RiskLevel.low => "well-maintained with minimal issues"
  | RiskLevel.medium => "generally good but has some areas for improvement"
  | RiskLevel.high => "has several important issues that should be addressed"
  | RiskLevel.critical => "has critical issues that require immediate attention"

/-- Embeds `AnalysisService.generateSummary`.  Note the source computes the
qualitative phrase from `this.determineRiskLevel(score, [])` — with an empty
verdict list — so the phrase depends on the score thresholds only. -/
def generateSummary (score : Int) (categories : Categories) (repoName : String) : String :=
  let riskLevel := determineRiskLevel score []
  ("The " ++ repoName ++ " repository scores " ++ toString score ++ "/100 and is ") ++
    (riskDescriptions riskLevel ++
      (". \nSecurity score: " ++ toString categories.security.score ++ "/100 (" ++
        toString categories.security.criticalIssues ++ " critical issues). \nCode quality: " ++
        toString categories.codeQuality.score ++ "/100. \nPerformance: " ++
        toString categories.performance.score ++ "/100. \nFocus on " ++
        (if 0 < categories.security.criticalIssues then "security vulnerabilities"
         else "code quality improvements") ++
        " as the next priority."))

/-- Embeds the `overview` object of the final report. -/
structure Overview where
  totalFiles : Nat
  linesOfCode : Nat
  overallScore : Int
  riskLevel : RiskLevel
  repositoryName : String
deriving DecidableEq

/-- Embeds the `FinalReport` interface. -/
structure FinalReport where
  overview : Overview
  categories : Categories
  fileAnalysis : List FileAnalysis
  recommendations : Recommendations
  summary : String
deriving DecidableEq

/-- Embeds `AnalysisService.generateFinalReport` (the pure aggregation part;
the metadata record is passed as the name/count arguments). -/
def generateFinalReport (fileAnalyses : List FileAnalysis) (repositoryName : String)
    (totalFiles linesOfCode : Nat) : FinalReport :=
  let categories := calculateCategoryScores fileAnalyses
  let overallScore := calculateOverallScore categories
  let riskLevel := determineRiskLevel overallScore fileAnalyses
  let recommendations := generateRecommendations fileAnalyses categories
  let summary := generateSummary overallScore categories repositoryName
  { overview :=
      { totalFiles := totalFiles
        linesOfCode := linesOfCode
        overallScore := overallScore
        riskLevel := riskLevel
        repositoryName := repositoryName }
    categories := categories
    fileAnalysis := fileAnalyses
    recommendations := recommendations
    summary := summary }

/-! ## Issue Correlator (`GitHubIssuesService`) -/

/-- Decides membership in the JavaScript regex word class `\w`
(`[A-Za-z0-9_]`). -/
def wordChar (c : Char) : Bool :=
  c.isAlphanum || c == '_'

/-- Tells whether position `i` of the character list holds a word character
(out-of-range positions count as non-word). -/
def wordAt (s : List Char) (i : Nat) : Bool :=
  match s[i]? with
  | some c => wordChar c
  | none => false

/-- Models the regex word-boundary assertion `\b` at position `i`: the
word-character status changes between positions `i - 1` and `i`, with the
virtual positions before the start and after the end non-word. -/
def wordBoundary (s : List Char) (i : Nat) : Bool :=
  (if i = 0 then false else wordAt s (i - 1)) != wordAt s i

/-- Models the JavaScript regex `.` wildcard: any character except the four
line terminators. -/
def dotMatches (c : Char) : Bool :=
  !(c == '\n' || c == '\r' || c == '\u2028' || c == '\u2029')

/-- Tells whether the interpolated pattern (first list) matches at the head
of the text (second list), reading the pattern the way `new RegExp` does for
the characters the term extractor emits: `.` is the any-character wildcard,
every other emitted character (word characters, `/`, `-`, quotes, spaces) is
a regex literal.  Terms carrying further metacharacters (`(`, `[`, `+`, `*`,
`?`, `|`, `\`, anchors) alter the pattern's parse or make the `RegExp`
constructor throw a `SyntaxError` — the source catches that in
`analyzeIssue` and substitutes the fallback `IssueAnalysis` with empty
`relatedFiles` — and are outside this matcher's domain; the claim theorems
restrict the term set accordingly. -/
def patternMatchesAt : List Char → List Char → Bool
  | [], _ => true
  | _ :: _, [] => false
  | p :: ps, c :: cs =>
    (if p = '.' then dotMatches c else p == c) && patternMatchesAt ps cs

/-- Tells whether the regex `\b term \b` built by `findRelatedFiles` matches
the character list `s` at position `i`. -/
def wwMatchAt (s t : List Char) (i : Nat) : Bool :=
  patternMatchesAt t (s.drop i) && wordBoundary s i && wordBoundary s (i + t.length)

/-- Left-to-right non-overlapping scan counting matches of a
pattern-at-position test, as the global-flag `String.match` does: after a
match at `i` the scan resumes after the matched text (advancing at least one
position).  `tlen` is the pattern length, `slen` the text length; `fuel`
bounds the recursion, and the callers supply enough for the whole text. -/
def wwScan (test : Nat → Bool) (tlen slen : Nat) : Nat → Nat → Nat
  | _, 0 => 0
  | i, fuel + 1 =>
    if slen < i then 0
    else if test i then 1 + wwScan test tlen slen (i + max tlen 1) fuel
    else wwScan test tlen slen (i + 1) fuel

/-- Models `(content.match(new RegExp("\\b" + term + "\\b", "g")) || []).length`,
the per-term whole-word match count of `findRelatedFiles`, with the raw term
text interpolated into the pattern (`patternMatchesAt`: `.` is a wildcard,
the extractor's other characters are literals). -/
def wholeWordCount (content term : String) : Nat :=
  wwScan (wwMatchAt content.data term.data) term.data.length content.data.length
    0 (content.data.length + 1)

/-- Embeds the per-file score accumulation of
`GitHubIssuesService.findRelatedFiles`: +10 per search term occurring
(case-insensitively) in the relative path, +2 per match of the interpolated
regex `\b term \b` in the lower-cased content (`wholeWordCount`: literal for
word-character terms, `.`-wildcard for dotted terms), +5 once if the
lower-cased issue body contains the file's extension string.  The search
terms come from `extractSearchTerms`, a regex-driven extractor producing a
deduplicated, capped term set; the claims quantify over that set, so it is
an explicit argument here. -/
def fileRelevanceScore (searchTerms : List String) (issue : GitHubIssue)
    (file : CodeFile) : Nat :=
  let pathScore := searchTerms.foldl
    (fun sc term =>
      if jsIncludes (jsToLower file.relativePath) (jsToLower term) then sc + 10 else sc)
    0
  let contentLower := jsToLower file.content
  let contentScore := searchTerms.foldl
    (fun sc term => sc + wholeWordCount contentLower (jsToLower term) * 2)
    pathScore
  if jsIncludes (jsToLower issue.body) file.extension then contentScore + 5 else contentScore

/-- Embeds `GitHubIssuesService.findRelatedFiles`: keep the files with
positive score in input order, sort descending by score
(`.sort((a, b) => b.score - a.score)`, a stable sort), keep the top 10, and
return the files. -/
def findRelatedFiles (searchTerms : List String) (issue : GitHubIssue)
    (codeFiles : List CodeFile) : List CodeFile :=
  let related := codeFiles.filterMap (fun file =>
    if 0 < fileRelevanceScore searchTerms issue file
    then some (file, fileRelevanceScore searchTerms issue file) else none)
  ((List.insertionSort (fun a b => b.2 ≤ a.2) related).take 10).map Prod.fst

/-- Embeds `GitHubIssuesService.prioritizeIssue`: the cascading
first-match-wins classification.  Note which signals the source checks
where: `critical`/`urgent`/`security` in labels but `crash`/`data loss`
only in the title; `high`/`important`/`priority` only in labels and
`blocker`/`regression`/`production` only in the title;
`low`/`minor`/`nice-to-have` in labels, `minor`/`cosmetic` in the title,
plus the closed-state check. -/
def prioritizeIssue (issue : GitHubIssue) : IssuePriority :=
  let labels := issue.labels.map jsToLower
  let title := jsToLower issue.title
  if labels.any (fun l => jsIncludes l "critical" || jsIncludes l "urgent" ||
        jsIncludes l "security") ||
      jsIncludes title "critical" || jsIncludes title "urgent" ||
      jsIncludes title "security" || jsIncludes title "crash" ||
      jsIncludes title "data loss" then
    IssuePriority.critical
  else if labels.any (fun l => jsIncludes l "high" || jsIncludes l "important" ||
        jsIncludes l "priority") ||
      jsIncludes title "blocker" || jsIncludes title "regression" ||
      jsIncludes title "production" then
    IssuePriority.high
  else if labels.any (fun l => jsIncludes l "low" || jsIncludes l "minor" ||
        jsIncludes l "nice-to-have") ||
      jsIncludes title "minor" || jsIncludes title "cosmetic" ||
      issue.state == IssueState.closed then
    IssuePriority.low
  else
    IssuePriority.medium

/-! ## General lemmas about the JavaScript primitives -/

/-- `Math.round` is monotone. -/
theorem jsRound_mono {p q : ℚ} (h : p ≤ q) : jsRound p ≤ jsRound q :=
  Int.floor_le_floor (by linarith)

/-- `Math.round` of a nonnegative value is nonnegative. -/
theorem jsRound_nonneg {q : ℚ} (h : 0 ≤ q) : 0 ≤ jsRound q :=
  Int.le_floor.mpr (by push_cast; linarith)

/-- `Math.round 0 = 0`. -/
theorem jsRound_zero : jsRound 0 = 0 := by
  rw [jsRound]
  norm_num

/-- Rounding after flooring at zero agrees with flooring at zero after
rounding: `Math.max(0, Math.round x) = Math.round (Math.max 0 x)`. -/
theorem max_zero_jsRound (q : ℚ) : max 0 (jsRound q) = jsRound (max 0 q) := by
  rcases le_or_lt 0 q with h | h
  · rw [max_eq_right h]
    exact max_eq_right (jsRound_nonneg h)
  · rw [max_eq_left h.le]
    have h1 : jsRound q ≤ jsRound 0 := jsRound_mono h.le
    rw [jsRound_zero] at h1
    rw [jsRound_zero]
    exact max_eq_left h1

/-- `Math.round` never exceeds an integer bound that the argument respects. -/
theorem jsRound_le_of_le {q : ℚ} {n : ℤ} (h : q ≤ n) : jsRound q ≤ n := by
  refine le_trans (jsRound_mono h) ?_
  rw [jsRound, add_comm, Int.floor_add_int]
  norm_num

/-- A prefix of a list is still a prefix after extending the list. -/
theorem startsWithChars_extend (t : List Char) :
    ∀ (s x : List Char), startsWithChars t s = true → startsWithChars t (s ++ x) = true := by
  induction t with
  | nil => intro s x _; rw [startsWithChars]
  | cons a as ih =>
    intro s x h
    cases s with
    | nil => exact absurd h (by rw [startsWithChars]; simp)
    | cons b bs =>
      rw [startsWithChars] at h
      rw [List.cons_append, startsWithChars]
      rcases Bool.and_eq_true_iff.mp h with ⟨h1, h2⟩
      exact Bool.and_eq_true_iff.mpr ⟨h1, ih bs x h2⟩

/-- Every list starts with itself followed by anything. -/
theorem startsWithChars_self_append (t : List Char) :
    ∀ (x : List Char), startsWithChars t (t ++ x) = true := by
  induction t with
  | nil => intro x; rw [startsWithChars]
  | cons a as ih =>
    intro x
    rw [List.cons_append, startsWithChars]
    exact Bool.and_eq_true_iff.mpr ⟨beq_self_eq_true a, ih x⟩

/-- A list that starts with `t` contains `t`. -/
theorem containsChars_of_startsWith {t s : List Char}
    (h : startsWithChars t s = true) : containsChars t s = true := by
  cases s with
  | nil => rw [containsChars]; exact h
  | cons c rest => rw [containsChars, h, Bool.true_or]

/-- Containment survives prepending. -/
theorem containsChars_append_left (t : List Char) :
    ∀ (x s : List Char), containsChars t s = true → containsChars t (x ++ s) = true := by
  intro x
  induction x with
  | nil => intro s h; exact h
  | cons c cs ih =>
    intro s h
    rw [List.cons_append, containsChars, ih s h, Bool.or_true]

/-- Containment survives appending. -/
theorem containsChars_append_right (t : List Char) :
    ∀ (s x : List Char), containsChars t s = true → containsChars t (s ++ x) = true := by
  intro s
  induction s with
  | nil =>
    intro x h
    rw [containsChars] at h
    cases t with
    | nil => exact containsChars_of_startsWith (by rw [startsWithChars])
    | cons a as => exact absurd h (by rw [startsWithChars]; simp)
  | cons c cs ih =>
    intro x h
    rw [containsChars] at h
    rw [List.cons_append, containsChars]
    rcases Bool.or_eq_true_iff.mp h with h1 | h2
    · have h3 : startsWithChars t (c :: (cs ++ x)) = true := by
        rw [← List.cons_append]
        exact startsWithChars_extend t (c :: cs) x h1
      rw [h3, Bool.true_or]
    · rw [ih x h2, Bool.or_true]

/-- `s.includes(s)` holds. -/
theorem jsIncludes_self (s : String) : jsIncludes s s = true := by
  rw [jsIncludes]
  exact containsChars_of_startsWith
    (by have := startsWithChars_self_append s.data []; rwa [List.append_nil] at this)

/-- `(pre ++ s).includes(needle)` holds whenever `s.includes(needle)` does. -/
theorem jsIncludes_append_left (pre s needle : String)
    (h : jsIncludes s needle = true) : jsIncludes (pre ++ s) needle = true := by
  rw [jsIncludes] at h ⊢
  rw [String.data_append]
  exact containsChars_append_left _ _ _ h

/-- `(s ++ post).includes(needle)` holds whenever `s.includes(needle)` does. -/
theorem jsIncludes_append_right (s post needle : String)
    (h : jsIncludes s needle = true) : jsIncludes (s ++ post) needle = true := by
  rw [jsIncludes] at h ⊢
  rw [String.data_append]
  exact containsChars_append_right _ _ _ h

/-! ## Claim C1: totality and fixed fallback of the per-file reviewer -/

/-- Claim C1: for every `CodeFile`, whenever the completion call errors, the
response content is absent or empty, or the returned text fails JSON parsing,
`analyzeFile` returns exactly the fixed fallback verdict — score 60,
maintainability 60, complexity `medium`, exactly one issue of type `quality`
and severity `medium` with the manual-review message, and one suggestion.
Being a total Lean function, the embedding also witnesses that no exception
propagates to the caller. -/
theorem c1_analyzeFile_fallback_on_failure
    (parse : String → Option ParsedAnalysis) (file : CodeFile)
    (outcome : CompletionOutcome)
    (hfail : outcome = CompletionOutcome.apiError ∨
      outcome = CompletionOutcome.response none ∨
      outcome = CompletionOutcome.response (some "") ∨
      ∃ c, outcome = CompletionOutcome.response (some c) ∧ parse c = none) :
    analyzeFile parse file outcome =
      { filePath := file.relativePath
        score := 60
        issues := [{ line := none
                     type := IssueType.quality
                     severity := Severity.medium
                     message := "Unable to analyze this file automatically"
                     suggestion := "Manual review recommended" }]
        suggestions := ["Review this file manually for potential improvements"]
        complexity := Complexity.medium
        maintainability := 60 } := by
  rcases hfail with h | h | h | ⟨c, h, hparse⟩
  · subst h; rfl
  · subst h; rfl
  · subst h; rfl
  · subst h
    by_cases hc : c = ""
    · subst hc; rfl
    · simp only [analyzeFile, if_neg hc, hparse]
      rfl

/-- Witness for C1 at a concrete failing input (an erroring completion
call). -/
theorem c1_witness :
    analyzeFile (fun _ => none)
        { filePath := "/tmp/x/src/a.ts", relativePath := "src/a.ts",
          content := "let x = 1symbol", extension := ".ts", size := 15 }
        CompletionOutcome.apiError =
      { filePath := "src/a.ts"
        score := 60
        issues := [{ line := none
                     type := IssueType.quality
                     severity := Severity.medium
                     message := "Unable to analyze this file automatically"
                     suggestion := "Manual review recommended" }]
        suggestions := ["Review this file manually for potential improvements"]
        complexity := Complexity.medium
        maintainability := 60 } :=
  c1_analyzeFile_fallback_on_failure (fun _ => none) _ _ (Or.inl rfl)

/-! ## Claim C10: truthiness-based field defaulting on a successful parse -/

/-- Claim C10: on a successfully parsed reviewer response, the numeric
fields default through JavaScript truthiness (`analysis.score || 70`), so a
parsed value of `0` for `score` (or for `maintainability`) is replaced by
70, exactly as if the field were missing. -/
theorem c10_zero_field_defaults_to_70
    (parse : String → Option ParsedAnalysis) (file : CodeFile)
    (c : String) (a : ParsedAnalysis)
    (hc : c ≠ "") (hparse : parse c = some a) :
    (a.score = some 0 →
      (analyzeFile parse file (CompletionOutcome.response (some c))).score = 70) ∧
    (a.maintainability = some 0 →
      (analyzeFile parse file (CompletionOutcome.response (some c))).maintainability = 70) := by
  constructor
  · intro hs
    simp only [analyzeFile, if_neg hc, hparse, jsOrInt, hs]
    rfl
  · intro hm
    simp only [analyzeFile, if_neg hc, hparse, jsOrInt, hm]
    rfl

/-- Witness for C10 at a concrete parsed verdict carrying explicit zero
fields. -/
theorem c10_witness :
    (analyzeFile
        (fun _ => some { score := some 0, issues := some [], suggestions := none,
                         complexity := some Complexity.low, maintainability := some 0 })
        { filePath := "/tmp/x/src/a.ts", relativePath := "src/a.ts",
          content := "", extension := ".ts", size := 0 }
        (CompletionOutcome.response (some "ok"))).score = 70 :=
  (c10_zero_field_defaults_to_70
    (fun _ => some { score := some 0, issues := some [], suggestions := none,
                     complexity := some Complexity.low, maintainability := some 0 })
    _ "ok" _ (by decide) rfl).1 rfl

/-! ## Claim C6: truncation policy -/

/-- Claim C6: for every content string, `truncateContent` passes contents of
at most 200 lines (splitting on newline) through unchanged; beyond that it
returns exactly the first 150 lines, then the elision-marker line, then the
last 50 lines, joined with newlines. -/
theorem c6_truncateContent_policy (content : String) :
    ((jsSplit content).length ≤ 200 → truncateContent content = content) ∧
    (200 < (jsSplit content).length →
      truncateContent content =
        jsJoin ((jsSplit content).take 150 ++
          truncationMarker :: (jsSplit content).drop ((jsSplit content).length - 50))) := by
  constructor
  · intro h
    rw [truncateContent, if_pos h]
  · intro h
    rw [truncateContent, if_neg (by omega), List.append_assoc, List.singleton_append]

/-- Witness for C6 on a concrete two-line content (and hence the unchanged
branch). -/
theorem c6_witness : truncateContent "line one\nline two" = "line one\nline two" :=
  (c6_truncateContent_policy "line one\nline two").1 (by decide)

/-! ## Claim C5: batch loop shape of `analyzeRepository` -/

/-- Claim C5: for every file list and every per-item processor, the batch
loop returns one verdict per input file in input order (the output is
exactly `files.map f`, so the i-th output is the verdict of the i-th input),
and sleeps once after every chunk of `maxFilesPerBatch = 5` except the last:
the delay count is `(length - 1) / 5` (so 7 items give `⌈7/5⌉ = 2` chunks
and exactly 1 delay, and at most 5 items give none). -/
theorem c5_analyzeRepository_order_and_delays
    (f : CodeFile → FileAnalysis) (files : List CodeFile) :
    (analyzeRepository f files).1 = files.map f ∧
    (analyzeRepository f files).2 = (files.length - 1) / maxFilesPerBatch := by
  suffices h : ∀ (n : Nat) (l : List CodeFile), l.length ≤ n →
      (analyzeRepository f l).1 = l.map f ∧
      (analyzeRepository f l).2 = (l.length - 1) / maxFilesPerBatch from
    h files.length files le_rfl
  intro n
  induction n with
  | zero =>
    intro l hl
    have : l = [] := List.length_eq_zero.mp (Nat.le_zero.mp hl)
    subst this
    rw [analyzeRepository]
    constructor <;> rfl
  | succ n ih =>
    intro l hl
    rw [analyzeRepository]
    by_cases hle : l.length ≤ maxFilesPerBatch
    · rw [dif_pos hle]
      refine ⟨rfl, ?_⟩
      show (0 : Nat) = (l.length - 1) / maxFilesPerBatch
      simp only [maxFilesPerBatch] at hle ⊢
      omega
    · rw [dif_neg hle]
      have hdrop : (l.drop maxFilesPerBatch).length ≤ n := by
        simp only [List.length_drop, maxFilesPerBatch] at hle hl ⊢
        omega
      obtain ⟨ih1, ih2⟩ := ih (l.drop maxFilesPerBatch) hdrop
      refine ⟨?_, ?_⟩
      · show (l.take maxFilesPerBatch).map f ++ (analyzeRepository f (l.drop maxFilesPerBatch)).1
            = l.map f
        rw [ih1, ← List.map_append, List.take_append_drop]
      · show (analyzeRepository f (l.drop maxFilesPerBatch)).2 + 1
            = (l.length - 1) / maxFilesPerBatch
        rw [ih2]
        simp only [List.length_drop, maxFilesPerBatch] at hle ⊢
        omega

/-! ## Claim C2: the category scoring function -/

/-- States the category scoring function the way the specification words it
(for comparison with `calculateScore`, which is embedded from the source):
85 on an empty bucket; otherwise sum the severity weights over the bucket,
divide by `fileCount × 5`, subtract the ratio as a percentage from 100,
floor at 0, and round to the nearest integer. -/
def specCategoryScore (analyses : List FileAnalysis) (issues : List Issue) : Int :=
  if issues = [] then 85
  else jsRound (max 0
    (100 - ((totalSeverityWeight issues : ℚ) / ((analyses.length : ℚ) * 5)) * 100))

/-- Claim C2: `calculateScore` returns exactly 85 on an empty bucket, and on
a non-empty bucket (drawn from a non-empty verdict list, which is what keeps
the divisor non-zero) it returns exactly the weighted-ratio formula of the
specification. -/
theorem c2_calculateScore_formula (analyses : List FileAnalysis) (issues : List Issue) :
    (issues = [] → calculateScore analyses issues = 85) ∧
    (issues ≠ [] → analyses ≠ [] →
      calculateScore analyses issues = specCategoryScore analyses issues) := by
  constructor
  · intro h
    subst h
    rfl
  · intro hi _
    have hie : issues.isEmpty = false := by
      cases issues with
      | nil => exact absurd rfl hi
      | cons a t => rfl
    have hcast : ((analyses.length * 5 : ℕ) : ℚ) = (analyses.length : ℚ) * 5 := by
      push_cast
      ring
    simp only [calculateScore, specCategoryScore, hie, Bool.false_eq_true, if_false,
      if_neg hi, hcast]
    exact max_zero_jsRound _

/-- Witness for C2: the empty bucket scores 85, and a singleton medium
bucket over one verdict matches the specification formula. -/
theorem c2_witness :
    calculateScore
        [{ filePath := "a", score := 90, issues := [], suggestions := [],
           complexity := Complexity.low, maintainability := 100 }] [] = 85 ∧
    calculateScore
        [{ filePath := "a", score := 90, issues := [], suggestions := [],
           complexity := Complexity.low, maintainability := 100 }]
        [{ line := none, type := IssueType.quality, severity := Severity.medium,
           message := "m", suggestion := "s" }] =
      specCategoryScore
        [{ filePath := "a", score := 90, issues := [], suggestions := [],
           complexity := Complexity.low, maintainability := 100 }]
        [{ line := none, type := IssueType.quality, severity := Severity.medium,
           message := "m", suggestion := "s" }] :=
  ⟨(c2_calculateScore_formula _ _).1 rfl,
   (c2_calculateScore_formula _ _).2 (by decide) (by decide)⟩

/-! ## Claim C3: risk level determination -/

/-- Collects every issue of every verdict
(`analyses.flatMap(a => a.issues)`). -/
def allIssues (analyses : List FileAnalysis) : List Issue :=
  (analyses.map (fun a => a.issues)).flatten

/-- States `determineRiskLevel` the way the specification words it:
`critical` when some issue anywhere is critical or the score is below 40,
then `high` below 60, `medium` below 80, else `low`. -/
def specRiskLevel (score : Int) (analyses : List FileAnalysis) : RiskLevel :=
  if (∃ i ∈ allIssues analyses, i.severity = Severity.critical) ∨ score < 40 then
    RiskLevel.critical
  else if score < 60 then RiskLevel.high
  else if score < 80 then RiskLevel.medium
  else RiskLevel.low

/-- The critical-issue count used by `determineRiskLevel` is positive
exactly when some issue of some verdict has severity `critical`. -/
theorem critical_filter_pos_iff (analyses : List FileAnalysis) :
    0 < ((allIssues analyses).filter
      (fun i => decide (i.severity = Severity.critical))).length ↔
      ∃ i ∈ allIssues analyses, i.severity = Severity.critical := by
  constructor
  · intro hp
    rcases hfil : (allIssues analyses).filter
        (fun i => decide (i.severity = Severity.critical)) with _ | ⟨i, rest⟩
    · rw [hfil] at hp
      simp at hp
    · have hi : i ∈ (allIssues analyses).filter
          (fun i => decide (i.severity = Severity.critical)) := by
        rw [hfil]
        exact List.mem_cons_self i rest
      have h2 := List.mem_filter.mp hi
      exact ⟨i, h2.1, of_decide_eq_true h2.2⟩
  · rintro ⟨i, hmem, hcrit⟩
    exact List.length_pos_of_mem (List.mem_filter.mpr ⟨hmem, decide_eq_true hcrit⟩)

/-- Claim C3: on every non-empty verdict list, `determineRiskLevel` follows
the specification's cascade; in particular one critical issue forces
`critical` regardless of the score, and with no critical issue and score
at least 80 the result is `low`. -/
theorem c3_determineRiskLevel_cascade (score : Int) (analyses : List FileAnalysis)
    (hne : analyses ≠ []) :
    determineRiskLevel score analyses = specRiskLevel score analyses ∧
    ((∃ i ∈ allIssues analyses, i.severity = Severity.critical) →
      determineRiskLevel score analyses = RiskLevel.critical) ∧
    ((¬∃ i ∈ allIssues analyses, i.severity = Severity.critical) → 80 ≤ score →
      determineRiskLevel score analyses = RiskLevel.low) := by
  clear hne
  have key := critical_filter_pos_iff analyses
  refine ⟨?_, ?_, ?_⟩
  · simp only [determineRiskLevel, specRiskLevel, allIssues] at key ⊢
    simp only [key]
  · intro hex
    have h0 := key.mpr hex
    simp only [determineRiskLevel, allIssues] at h0 ⊢
    rw [if_pos (Or.inl h0)]
  · intro hnex hsc
    have h0 : ¬ 0 < ((allIssues analyses).filter
        (fun i => decide (i.severity = Severity.critical))).length := fun hp =>
      hnex (key.mp hp)
    simp only [determineRiskLevel, allIssues] at h0 ⊢
    rw [if_neg (by rintro (hp | hlt); exact h0 hp; omega),
      if_neg (by omega), if_neg (by omega)]

/-- Witness for C3 on a one-verdict list with a critical issue: the risk
level is `critical` even though the score argument is 95. -/
theorem c3_witness :
    determineRiskLevel 95
        [{ filePath := "a", score := 95,
           issues := [{ line := some 3, type := IssueType.security,
                        severity := Severity.critical, message := "m", suggestion := "s" }],
           suggestions := [], complexity := Complexity.low, maintainability := 100 }] =
      RiskLevel.critical :=
  (c3_determineRiskLevel_cascade 95 _ (by decide)).2.1
    ⟨_, List.mem_cons_self _ _, rfl⟩

/-! ## Claim C4: all scores stay within [0, 100] -/

/-- The issue-derived category score is always within [0, 100]: the ratio
subtracted from 100 is nonnegative, so rounding stays at or below 100, and
the `Math.max(0, ·)` floor gives the lower bound. -/
theorem calculateScore_bounds (analyses : List FileAnalysis) (issues : List Issue) :
    0 ≤ calculateScore analyses issues ∧ calculateScore analyses issues ≤ 100 := by
  by_cases h : issues.isEmpty
  · simp only [calculateScore, h, if_true]
    norm_num
  · simp only [calculateScore, h, Bool.false_eq_true, if_false]
    constructor
    · exact le_max_left 0 _
    · refine max_le (by norm_num) (jsRound_le_of_le ?_)
      push_cast
      have hratio : (0 : ℚ) ≤
          (totalSeverityWeight issues : ℚ) / ((analyses.length : ℚ) * 5) * 100 := by
        positivity
      linarith

/-- Folding `+ maintainability` over a list is the initial value plus the
sum of the maintainability values. -/
theorem foldl_maintainability (l : List FileAnalysis) :
    ∀ init : Int, l.foldl (fun s a => s + a.maintainability) init =
      init + (l.map (fun a => a.maintainability)).sum := by
  induction l with
  | nil =>
    intro init
    simp
  | cons a t ih =>
    intro init
    rw [List.foldl_cons, ih, List.map_cons, List.sum_cons]
    ring

/-- The maintainability category score (the rounded mean of the per-verdict
maintainability values) is within [0, 100] whenever every verdict's value
is. -/
theorem maintainabilityScore_bounds (analyses : List FileAnalysis)
    (hne : analyses ≠ [])
    (hm : ∀ a ∈ analyses, 0 ≤ a.maintainability ∧ a.maintainability ≤ 100) :
    0 ≤ jsRound (((analyses.foldl (fun s a => s + a.maintainability) 0 : Int) : ℚ) /
        (analyses.length : ℚ)) ∧
      jsRound (((analyses.foldl (fun s a => s + a.maintainability) 0 : Int) : ℚ) /
        (analyses.length : ℚ)) ≤ 100 := by
  have hlen : 0 < analyses.length := List.length_pos.mpr hne
  have hlenq : (0 : ℚ) < (analyses.length : ℚ) := by exact_mod_cast hlen
  have hsum := foldl_maintainability analyses 0
  have hlow : (0 : Int) ≤ (analyses.map (fun a => a.maintainability)).sum :=
    List.sum_nonneg (by
      intro x hx
      obtain ⟨a, ha, rfl⟩ := List.mem_map.mp hx
      exact (hm a ha).1)
  have hhigh : (analyses.map (fun a => a.maintainability)).sum ≤
      (analyses.length : Int) * 100 := by
    have := List.sum_le_card_nsmul (analyses.map (fun a => a.maintainability)) 100 (by
      intro x hx
      obtain ⟨a, ha, rfl⟩ := List.mem_map.mp hx
      exact (hm a ha).2)
    rw [List.length_map] at this
    simpa [nsmul_eq_mul] using this
  rw [hsum, zero_add]
  constructor
  · exact jsRound_nonneg (div_nonneg (by exact_mod_cast hlow) hlenq.le)
  · refine jsRound_le_of_le ?_
    rw [div_le_iff₀ hlenq]
    have hZ : (analyses.map (fun a => a.maintainability)).sum ≤
        (100 : ℤ) * (analyses.length : ℤ) := by
      linarith
    exact_mod_cast hZ

/-- Claim C4: for every non-empty verdict list whose maintainability values
lie in [0, 100], all four category scores lie in [0, 100], and so does the
weighted overall score. -/
theorem c4_category_and_overall_bounds (analyses : List FileAnalysis)
    (hne : analyses ≠ [])
    (hm : ∀ a ∈ analyses, 0 ≤ a.maintainability ∧ a.maintainability ≤ 100) :
    (0 ≤ (calculateCategoryScores analyses).security.score ∧
      (calculateCategoryScores analyses).security.score ≤ 100) ∧
    (0 ≤ (calculateCategoryScores analyses).codeQuality.score ∧
      (calculateCategoryScores analyses).codeQuality.score ≤ 100) ∧
    (0 ≤ (calculateCategoryScores analyses).performance.score ∧
      (calculateCategoryScores analyses).performance.score ≤ 100) ∧
    (0 ≤ (calculateCategoryScores analyses).maintainability.score ∧
      (calculateCategoryScores analyses).maintainability.score ≤ 100) ∧
    (0 ≤ calculateOverallScore (calculateCategoryScores analyses) ∧
      calculateOverallScore (calculateCategoryScores analyses) ≤ 100) := by
  have hsec : (calculateCategoryScores analyses).security.score =
      calculateScore analyses (securityBucket analyses) := rfl
  have hcq : (calculateCategoryScores analyses).codeQuality.score =
      calculateScore analyses (qualityBucket analyses) := rfl
  have hperf : (calculateCategoryScores analyses).performance.score =
      calculateScore analyses (performanceBucket analyses) := rfl
  have hmaint : (calculateCategoryScores analyses).maintainability.score =
      jsRound (((analyses.foldl (fun s a => s + a.maintainability) 0 : Int) : ℚ) /
        (analyses.length : ℚ)) := rfl
  have bsec := calculateScore_bounds analyses (securityBucket analyses)
  have bcq := calculateScore_bounds analyses (qualityBucket analyses)
  have bperf := calculateScore_bounds analyses (performanceBucket analyses)
  have bmaint := maintainabilityScore_bounds analyses hne hm
  refine ⟨by rw [hsec]; exact bsec, by rw [hcq]; exact bcq,
    by rw [hperf]; exact bperf, by rw [hmaint]; exact bmaint, ?_⟩
  have hover : calculateOverallScore (calculateCategoryScores analyses) =
      jsRound (((calculateCategoryScores analyses).security.score : ℚ) * 0.3 +
        ((calculateCategoryScores analyses).codeQuality.score : ℚ) * 0.25 +
        ((calculateCategoryScores analyses).performance.score : ℚ) * 0.25 +
        ((calculateCategoryScores analyses).maintainability.score : ℚ) * 0.2) := rfl
  rw [hover, hsec, hcq, hperf, hmaint]
  have hs0 : (0 : ℚ) ≤ (calculateScore analyses (securityBucket analyses) : ℚ) := by
    exact_mod_cast bsec.1
  have hs1 : (calculateScore analyses (securityBucket analyses) : ℚ) ≤ 100 := by
    exact_mod_cast bsec.2
  have hq0 : (0 : ℚ) ≤ (calculateScore analyses (qualityBucket analyses) : ℚ) := by
    exact_mod_cast bcq.1
  have hq1 : (calculateScore analyses (qualityBucket analyses) : ℚ) ≤ 100 := by
    exact_mod_cast bcq.2
  have hp0 : (0 : ℚ) ≤ (calculateScore analyses (performanceBucket analyses) : ℚ) := by
    exact_mod_cast bperf.1
  have hp1 : (calculateScore analyses (performanceBucket analyses) : ℚ) ≤ 100 := by
    exact_mod_cast bperf.2
  have hm0 : (0 : ℚ) ≤
      ((jsRound (((analyses.foldl (fun s a => s + a.maintainability) 0 : Int) : ℚ) /
        (analyses.length : ℚ))) : ℚ) := by
    exact_mod_cast bmaint.1
  have hm1 : ((jsRound (((analyses.foldl (fun s a => s + a.maintainability) 0 : Int) : ℚ) /
      (analyses.length : ℚ))) : ℚ) ≤ 100 := by
    exact_mod_cast bmaint.2
  constructor
  · exact jsRound_nonneg (by linarith)
  · refine jsRound_le_of_le ?_
    push_cast
    linarith

/-- Witness for C4 on a concrete one-verdict list. -/
theorem c4_witness :
    0 ≤ calculateOverallScore (calculateCategoryScores
        [{ filePath := "a", score := 90, issues := [], suggestions := [],
           complexity := Complexity.low, maintainability := 70 }]) ∧
      calculateOverallScore (calculateCategoryScores
        [{ filePath := "a", score := 90, issues := [], suggestions := [],
           complexity := Complexity.low, maintainability := 70 }]) ≤ 100 :=
  (c4_category_and_overall_bounds
    [{ filePath := "a", score := 90, issues := [], suggestions := [],
       complexity := Complexity.low, maintainability := 70 }]
    (by decide) (by decide)).2.2.2.2

/-! ## Claim C9: the summary phrase ignores critical issues -/

/-- With an empty verdict list (as `generateSummary` passes), the risk level
reduces to the score thresholds alone; at 80 and above it is `low`. -/
theorem determineRiskLevel_nil_low (score : Int) (h : 80 ≤ score) :
    determineRiskLevel score [] = RiskLevel.low := by
  simp only [determineRiskLevel, List.map_nil, List.flatten_nil, List.filter_nil,
    List.length_nil]
  rw [if_neg (by omega), if_neg (by omega), if_neg (by omega)]

/-- Claim C9: the qualitative phrase of the report summary is computed from
`determineRiskLevel(score, [])`, so it depends only on the score thresholds:
whenever some verdict carries a critical-severity issue but the overall
score is at least 80, the report's overview risk level is `critical` while
its summary describes the repository with the low-risk phrase
"well-maintained with minimal issues". -/
theorem c9_summary_phrase_ignores_critical_issues
    (analyses : List FileAnalysis) (repoName : String) (totalFiles linesOfCode : Nat)
    (hcrit : ∃ i ∈ allIssues analyses, i.severity = Severity.critical)
    (hscore : 80 ≤ (generateFinalReport analyses repoName totalFiles
      linesOfCode).overview.overallScore) :
    (generateFinalReport analyses repoName totalFiles linesOfCode).overview.riskLevel =
      RiskLevel.critical ∧
    jsIncludes (generateFinalReport analyses repoName totalFiles linesOfCode).summary
      "well-maintained with minimal issues" = true := by
  have hscore' : 80 ≤ calculateOverallScore (calculateCategoryScores analyses) := hscore
  constructor
  · show determineRiskLevel (calculateOverallScore (calculateCategoryScores analyses))
      analyses = RiskLevel.critical
    have h0 := (critical_filter_pos_iff analyses).mpr hcrit
    simp only [allIssues] at h0
    simp only [determineRiskLevel]
    rw [if_pos (Or.inl h0)]
  · show jsIncludes (generateSummary (calculateOverallScore (calculateCategoryScores analyses))
      (calculateCategoryScores analyses) repoName) "well-maintained with minimal issues" = true
    rw [generateSummary, determineRiskLevel_nil_low _ hscore']
    refine jsIncludes_append_left _ _ _ ?_
    exact jsIncludes_append_right _ _ _ (jsIncludes_self _)

/-- Concrete verdict carrying one critical security issue, used by the C9
witness. -/
def c9CriticalVerdict : FileAnalysis :=
  { filePath := "src/auth.ts"
    score := 90
    issues := [{ line := some 12, type := IssueType.security,
                 severity := Severity.critical,
                 message := "Hard-coded credentials", suggestion := "Move secrets to env" }]
    suggestions := []
    complexity := Complexity.low
    maintainability := 100 }

/-- Concrete clean verdict used by the C9 witness. -/
def c9CleanVerdict : FileAnalysis :=
  { filePath := "src/util.ts"
    score := 90
    issues := []
    suggestions := []
    complexity := Complexity.low
    maintainability := 100 }

/-- Concrete seven-verdict list whose overall score is 80 although one
verdict has a critical issue. -/
def c9Verdicts : List FileAnalysis :=
  c9CriticalVerdict :: List.replicate 6 c9CleanVerdict

/-- Witness for C9: a seven-file report with one critical security issue
scores 80 overall, is flagged `critical` in the overview, yet its summary
contains the low-risk phrase. -/
theorem c9_witness :
    (generateFinalReport c9Verdicts "demo" 7 700).overview.riskLevel = RiskLevel.critical ∧
    jsIncludes (generateFinalReport c9Verdicts "demo" 7 700).summary
      "well-maintained with minimal issues" = true :=
  c9_summary_phrase_ignores_critical_issues c9Verdicts "demo" 7 700
    (by decide)
    (by
      show (80 : ℤ) ≤ calculateOverallScore (calculateCategoryScores c9Verdicts)
      norm_num +decide [calculateOverallScore, calculateCategoryScores, calculateScore,
        securityBucket, performanceBucket, qualityBucket, styleBucket,
        totalSeverityWeight, severityWeight, jsRound, c9Verdicts, c9CriticalVerdict,
        c9CleanVerdict, List.replicate])

/-! ## Claim C8: issue prioritisation precedence -/

/-- A keyword occurring (case-insensitively) in the issue title. -/
def titleSignal (issue : GitHubIssue) (s : String) : Prop :=
  jsIncludes (jsToLower issue.title) s = true

/-- The critical rule as the code implements it: `critical`/`urgent`/
`security` in some label, or `critical`/`urgent`/`security`/`crash`/
`data loss` in the title. -/
def criticalRule (issue : GitHubIssue) : Prop :=
  (∃ l ∈ issue.labels, jsIncludes (jsToLower l) "critical" = true ∨
    jsIncludes (jsToLower l) "urgent" = true ∨
    jsIncludes (jsToLower l) "security" = true) ∨
  titleSignal issue "critical" ∨ titleSignal issue "urgent" ∨
  titleSignal issue "security" ∨ titleSignal issue "crash" ∨
  titleSignal issue "data loss"

/-- The high rule as the code implements it: `high`/`important`/`priority`
in some label, or `blocker`/`regression`/`production` in the title. -/
def highRule (issue : GitHubIssue) : Prop :=
  (∃ l ∈ issue.labels, jsIncludes (jsToLower l) "high" = true ∨
    jsIncludes (jsToLower l) "important" = true ∨
    jsIncludes (jsToLower l) "priority" = true) ∨
  titleSignal issue "blocker" ∨ titleSignal issue "regression" ∨
  titleSignal issue "production"

/-- The low rule as the code implements it: `low`/`minor`/`nice-to-have` in
some label, `minor`/`cosmetic` in the title, or a closed issue. -/
def lowRule (issue : GitHubIssue) : Prop :=
  (∃ l ∈ issue.labels, jsIncludes (jsToLower l) "low" = true ∨
    jsIncludes (jsToLower l) "minor" = true ∨
    jsIncludes (jsToLower l) "nice-to-have" = true) ∨
  titleSignal issue "minor" ∨ titleSignal issue "cosmetic" ∨
  issue.state = IssueState.closed

/-- Counterexample to C8 as stated: the claim reads every listed signal as
checked "in labels or title", but the source checks `crash` (and
`data loss`) only in the title.  An open issue whose only signal is the
label `"crash"` is classified `medium`, not `critical`. -/
def crashLabelIssue : GitHubIssue :=
  { id := 101
    number := 7
    title := "app keeps failing on startup"
    body := "the app terminates unexpectedly"
    state := IssueState.open
    labels := ["crash"]
    createdAt := "2024-01-01T00:00:00Z"
    updatedAt := "2024-01-02T00:00:00Z"
    author := "reporter"
    url := "https://example.invalid/issues/7"
    comments := [] }

/-- C8 counterexample: an open issue labelled `"crash"` (a critical signal
per the claim's reading) is prioritised `medium` by the code, not
`critical`. -/
theorem c8_counterexample :
    crashLabelIssue.labels = ["crash"] ∧
    crashLabelIssue.state = IssueState.open ∧
    prioritizeIssue crashLabelIssue = IssuePriority.medium ∧
    prioritizeIssue crashLabelIssue ≠ IssuePriority.critical :=
  ⟨rfl, rfl, by decide, by decide⟩

/-- The Boolean condition of the first branch of `prioritizeIssue` holds
exactly when the critical rule does. -/
theorem criticalCond_iff (issue : GitHubIssue) :
    ((issue.labels.map jsToLower).any (fun l => jsIncludes l "critical" ||
        jsIncludes l "urgent" || jsIncludes l "security") ||
      jsIncludes (jsToLower issue.title) "critical" ||
      jsIncludes (jsToLower issue.title) "urgent" ||
      jsIncludes (jsToLower issue.title) "security" ||
      jsIncludes (jsToLower issue.title) "crash" ||
      jsIncludes (jsToLower issue.title) "data loss") = true ↔ criticalRule issue := by
  simp [criticalRule, titleSignal, List.any_map, List.any_eq_true, Function.comp,
    or_assoc]

/-- The Boolean condition of the second branch of `prioritizeIssue` holds
exactly when the high rule does. -/
theorem highCond_iff (issue : GitHubIssue) :
    ((issue.labels.map jsToLower).any (fun l => jsIncludes l "high" ||
        jsIncludes l "important" || jsIncludes l "priority") ||
      jsIncludes (jsToLower issue.title) "blocker" ||
      jsIncludes (jsToLower issue.title) "regression" ||
      jsIncludes (jsToLower issue.title) "production") = true ↔ highRule issue := by
  simp [highRule, titleSignal, List.any_map, List.any_eq_true, Function.comp, or_assoc]

/-- The Boolean condition of the third branch of `prioritizeIssue` holds
exactly when the low rule does. -/
theorem lowCond_iff (issue : GitHubIssue) :
    ((issue.labels.map jsToLower).any (fun l => jsIncludes l "low" ||
        jsIncludes l "minor" || jsIncludes l "nice-to-have") ||
      jsIncludes (jsToLower issue.title) "minor" ||
      jsIncludes (jsToLower issue.title) "cosmetic" ||
      (issue.state == IssueState.closed)) = true ↔ lowRule issue := by
  simp [lowRule, titleSignal, List.any_map, List.any_eq_true, Function.comp, or_assoc]

/-- Claim C8 (amended): `prioritizeIssue` evaluates its rules in fixed
precedence order with first match winning — `critical` on
critical/urgent/security label signals or critical/urgent/security/crash/
data-loss title signals; else `high` on high/important/priority label
signals or blocker/regression/production title signals; else `low` on
low/minor/nice-to-have label signals, minor/cosmetic title signals, or a
closed issue; else `medium`.  (The claim as frozen reads `crash`/`data loss`
as label signals too; the code checks them only in the title — see the
counterexample.)  In particular a title containing "security" yields
`critical` regardless of labels and state. -/
theorem c8_prioritizeIssue_first_match (issue : GitHubIssue) :
    (prioritizeIssue issue = IssuePriority.critical ↔ criticalRule issue) ∧
    (prioritizeIssue issue = IssuePriority.high ↔
      ¬criticalRule issue ∧ highRule issue) ∧
    (prioritizeIssue issue = IssuePriority.low ↔
      ¬criticalRule issue ∧ ¬highRule issue ∧ lowRule issue) ∧
    (prioritizeIssue issue = IssuePriority.medium ↔
      ¬criticalRule issue ∧ ¬highRule issue ∧ ¬lowRule issue) ∧
    (titleSignal issue "security" → prioritizeIssue issue = IssuePriority.critical) := by
  have hc := criticalCond_iff issue
  have hh := highCond_iff issue
  have hl := lowCond_iff issue
  simp only [prioritizeIssue]
  split_ifs with h1 h2 h3
  · have hcr : criticalRule issue := hc.mp h1
    refine ⟨by simp [hcr], by simp [hcr], by simp [hcr], by simp [hcr], fun _ => rfl⟩
  · have hncr : ¬criticalRule issue := fun hr => h1 (hc.mpr hr)
    have hhr : highRule issue := hh.mp h2
    refine ⟨by simp [hncr], by simp [hncr, hhr], by simp [hncr, hhr],
      by simp [hncr, hhr], fun ht => absurd (Or.inr (Or.inr (Or.inr (Or.inl ht)))) hncr⟩
  · have hncr : ¬criticalRule issue := fun hr => h1 (hc.mpr hr)
    have hnhr : ¬highRule issue := fun hr => h2 (hh.mpr hr)
    have hlr : lowRule issue := hl.mp h3
    refine ⟨by simp [hncr], by simp [hncr, hnhr], by simp [hncr, hnhr, hlr],
      by simp [hncr, hnhr, hlr],
      fun ht => absurd (Or.inr (Or.inr (Or.inr (Or.inl ht)))) hncr⟩
  · have hncr : ¬criticalRule issue := fun hr => h1 (hc.mpr hr)
    have hnhr : ¬highRule issue := fun hr => h2 (hh.mpr hr)
    have hnlr : ¬lowRule issue := fun hr => h3 (hl.mpr hr)
    refine ⟨by simp [hncr], by simp [hncr, hnhr], by simp [hncr, hnhr, hnlr],
      by simp [hncr, hnhr, hnlr],
      fun ht => absurd (Or.inr (Or.inr (Or.inr (Or.inl ht)))) hncr⟩

/-- Witness for C8 (amended): a closed issue titled "Security hole" with a
"low" label is still prioritised `critical`. -/
theorem c8_witness :
    prioritizeIssue
        { id := 1, number := 2, title := "Security hole in login", body := "",
          state := IssueState.closed, labels := ["low"], createdAt := "",
          updatedAt := "", author := "a", url := "", comments := [] } =
      IssuePriority.critical :=
  (c8_prioritizeIssue_first_match _).2.2.2.2
    (show jsIncludes (jsToLower "Security hole in login") "security" = true by decide)

/-! ## Claim C7: relevance scoring and top-10 selection -/

/-- States the claim's reading of a whole-word match at a position: the term
occurs literally and sits between word boundaries. -/
def specWordMatchAt (s t : List Char) (i : Nat) : Bool :=
  startsWithChars t (s.drop i) && wordBoundary s i && wordBoundary s (i + t.length)

/-- States the claim's per-term count: literal whole-word occurrences of the
term in the content (same non-overlapping scan, term read literally). -/
def specWholeWordCount (content term : String) : Nat :=
  wwScan (specWordMatchAt content.data term.data) term.data.length content.data.length
    0 (content.data.length + 1)

/-- States the per-file relevance score the way the claim words it
(for comparison with `fileRelevanceScore`, which is embedded from the
source): 10 per term occurring case-insensitively in the relative path, 2
per literal whole-word occurrence of a term in the content, plus a flat 5
when the issue body contains the file's extension string. -/
def specRelevanceScore (searchTerms : List String) (issue : GitHubIssue)
    (file : CodeFile) : Nat :=
  10 * (searchTerms.filter
      (fun t => jsIncludes (jsToLower file.relativePath) (jsToLower t))).length +
    2 * (searchTerms.map
      (fun t => specWholeWordCount (jsToLower file.content) (jsToLower t))).sum +
    (if jsIncludes (jsToLower issue.body) file.extension then 5 else 0)

/-- On a pattern of word characters (no `.` wildcard, no other
metacharacters) the interpolated-regex matcher is literal matching. -/
theorem patternMatchesAt_eq_startsWith :
    ∀ (t s : List Char), t.all wordChar = true →
      patternMatchesAt t s = startsWithChars t s := by
  intro t
  induction t with
  | nil =>
    intro s _
    rfl
  | cons p ps ih =>
    intro s ht
    obtain ⟨hp, hps⟩ : wordChar p = true ∧ ps.all wordChar = true := by
      simpa [List.all_cons] using ht
    cases s with
    | nil => rfl
    | cons c cs =>
      have hpd : p ≠ '.' := by
        intro hcon
        rw [hcon] at hp
        exact absurd hp (by decide)
      show ((if p = '.' then dotMatches c else p == c) && patternMatchesAt ps cs) =
        (p == c && startsWithChars ps cs)
      rw [if_neg hpd, ih cs hps]

/-- The scan count depends only on the pointwise behaviour of the
position test. -/
theorem wwScan_congr (f g : Nat → Bool) (hfg : ∀ i, f i = g i) (tlen slen : Nat) :
    ∀ (fuel i : Nat), wwScan f tlen slen i fuel = wwScan g tlen slen i fuel := by
  intro fuel
  induction fuel with
  | zero =>
    intro i
    rfl
  | succ n ih =>
    intro i
    simp only [wwScan]
    rw [hfg i]
    by_cases h1 : slen < i
    · rw [if_pos h1, if_pos h1]
    · rw [if_neg h1, if_neg h1]
      by_cases h2 : g i = true
      · rw [if_pos h2, if_pos h2, ih]
      · rw [if_neg h2, if_neg h2, ih]

/-- For a term made of word characters the source's regex count coincides
with the claim's literal whole-word occurrence count. -/
theorem wholeWordCount_eq_spec (content term : String)
    (h : term.data.all wordChar = true) :
    wholeWordCount content term = specWholeWordCount content term := by
  rw [wholeWordCount, specWholeWordCount]
  refine wwScan_congr _ _ ?_ _ _ _ _
  intro i
  rw [wwMatchAt, specWordMatchAt, patternMatchesAt_eq_startsWith _ _ h]

/-- Folding the `+10`-per-matching-term pass equals ten times the number of
matching terms. -/
theorem foldl_pathScore (p : String → Bool) (l : List String) :
    ∀ init : Nat, l.foldl (fun sc t => if p t then sc + 10 else sc) init =
      init + 10 * (l.filter p).length := by
  induction l with
  | nil =>
    intro init
    simp
  | cons a t ih =>
    intro init
    rw [List.foldl_cons]
    by_cases h : p a
    · rw [if_pos h, ih]
      simp [List.filter_cons, h]
      omega
    · rw [if_neg h, ih]
      simp [List.filter_cons, h]

/-- Folding the `+2`-per-occurrence pass equals twice the summed occurrence
counts. -/
theorem foldl_contentScore (g : String → Nat) (l : List String) :
    ∀ init : Nat, l.foldl (fun sc t => sc + g t * 2) init =
      init + 2 * (l.map g).sum := by
  induction l with
  | nil =>
    intro init
    simp
  | cons a t ih =>
    intro init
    rw [List.foldl_cons, ih, List.map_cons, List.sum_cons]
    ring

/-- Claim C7 (amended): for term sets of (distinct) word-character terms —
the identifier-shaped tokens for which the interpolated regex reads the term
literally — a file's relevance score is exactly 10 per term in the path plus
2 per whole-word content occurrence plus the 5-point extension bonus;
zero-scored files never appear in the result; at most 10 files are returned,
and any positive-scored file that is left out implies the result is full and
every returned file scores at least as much.  (The claim as frozen also
covers terms carrying regex metacharacters, where the source's `.`-wildcard
matching departs from literal occurrence counting — see the
counterexample.) -/
theorem c7_findRelatedFiles_scoring (searchTerms : List String) (issue : GitHubIssue)
    (codeFiles : List CodeFile) (hnd : searchTerms.Nodup)
    (hword : ∀ t ∈ searchTerms, (jsToLower t).data.all wordChar = true) :
    (∀ file : CodeFile, fileRelevanceScore searchTerms issue file =
      specRelevanceScore searchTerms issue file) ∧
    (findRelatedFiles searchTerms issue codeFiles).length ≤ 10 ∧
    (∀ f ∈ findRelatedFiles searchTerms issue codeFiles,
      0 < fileRelevanceScore searchTerms issue f) ∧
    (∀ g ∈ codeFiles, 0 < fileRelevanceScore searchTerms issue g →
      g ∉ findRelatedFiles searchTerms issue codeFiles →
      (findRelatedFiles searchTerms issue codeFiles).length = 10 ∧
      ∀ f ∈ findRelatedFiles searchTerms issue codeFiles,
        fileRelevanceScore searchTerms issue g ≤ fileRelevanceScore searchTerms issue f) := by
  clear hnd
  have hformula : ∀ file : CodeFile, fileRelevanceScore searchTerms issue file =
      specRelevanceScore searchTerms issue file := by
    intro file
    have hmap : searchTerms.map
        (fun t => wholeWordCount (jsToLower file.content) (jsToLower t)) =
        searchTerms.map
          (fun t => specWholeWordCount (jsToLower file.content) (jsToLower t)) :=
      List.map_congr_left (fun t ht => wholeWordCount_eq_spec _ _ (hword t ht))
    simp only [fileRelevanceScore, specRelevanceScore]
    rw [foldl_pathScore, foldl_contentScore, hmap]
    by_cases h : jsIncludes (jsToLower issue.body) file.extension
    · rw [if_pos h, if_pos h]
      omega
    · rw [if_neg h, if_neg h]
      omega
  have hrelated : findRelatedFiles searchTerms issue codeFiles =
      ((List.insertionSort (fun a b => b.2 ≤ a.2) (codeFiles.filterMap (fun file =>
          if 0 < fileRelevanceScore searchTerms issue file
          then some (file, fileRelevanceScore searchTerms issue file) else none))).take
        10).map Prod.fst := rfl
  haveI hTotal : IsTotal (CodeFile × Nat) (fun a b => b.2 ≤ a.2) :=
    ⟨fun a b => le_total b.2 a.2⟩
  haveI hTrans : IsTrans (CodeFile × Nat) (fun a b => b.2 ≤ a.2) :=
    ⟨fun _ _ _ hab hbc => le_trans hbc hab⟩
  have hsorted := List.sorted_insertionSort (fun (a b : CodeFile × Nat) => b.2 ≤ a.2)
    (codeFiles.filterMap (fun file =>
      if 0 < fileRelevanceScore searchTerms issue file
      then some (file, fileRelevanceScore searchTerms issue file) else none))
  have hperm := List.perm_insertionSort (fun (a b : CodeFile × Nat) => b.2 ≤ a.2)
    (codeFiles.filterMap (fun file =>
      if 0 < fileRelevanceScore searchTerms issue file
      then some (file, fileRelevanceScore searchTerms issue file) else none))
  have hshape : ∀ p ∈ codeFiles.filterMap (fun file =>
      if 0 < fileRelevanceScore searchTerms issue file
      then some (file, fileRelevanceScore searchTerms issue file) else none),
      p.1 ∈ codeFiles ∧ p.2 = fileRelevanceScore searchTerms issue p.1 ∧ 0 < p.2 := by
    intro p hp
    obtain ⟨a, ha, hfa⟩ := List.mem_filterMap.mp hp
    by_cases h : 0 < fileRelevanceScore searchTerms issue a
    · rw [if_pos h] at hfa
      cases hfa
      exact ⟨ha, rfl, h⟩
    · rw [if_neg h] at hfa
      cases hfa
  refine ⟨hformula, ?_, ?_, ?_⟩
  · rw [hrelated, List.length_map, List.length_take]
    omega
  · intro f hf
    rw [hrelated] at hf
    obtain ⟨p, hpTake, rfl⟩ := List.mem_map.mp hf
    have hpL := List.mem_of_mem_take hpTake
    have hpR := hperm.mem_iff.mp hpL
    obtain ⟨_, hp2, hppos⟩ := hshape p hpR
    rw [← hp2]
    exact hppos
  · intro g hg hgpos hgnot
    have hgrel : (g, fileRelevanceScore searchTerms issue g) ∈
        codeFiles.filterMap (fun file =>
          if 0 < fileRelevanceScore searchTerms issue file
          then some (file, fileRelevanceScore searchTerms issue file) else none) :=
      List.mem_filterMap.mpr ⟨g, hg, by rw [if_pos hgpos]⟩
    have hgL := hperm.mem_iff.mpr hgrel
    rw [← List.take_append_drop 10 (List.insertionSort _ _)] at hgL
    rcases List.mem_append.mp hgL with htake | hdrop
    · exfalso
      apply hgnot
      rw [hrelated]
      exact List.mem_map_of_mem Prod.fst htake
    · have hlong : 10 < (List.insertionSort (fun (a b : CodeFile × Nat) => b.2 ≤ a.2)
          (codeFiles.filterMap (fun file =>
            if 0 < fileRelevanceScore searchTerms issue file
            then some (file, fileRelevanceScore searchTerms issue file) else none))).length := by
        by_contra hle
        rw [List.drop_eq_nil_iff.mpr (by omega)] at hdrop
        cases hdrop
      constructor
      · rw [hrelated, List.length_map, List.length_take]
        omega
      · intro f hf
        rw [hrelated] at hf
        obtain ⟨p, hpTake, rfl⟩ := List.mem_map.mp hf
        have hrel := List.Sorted.rel_of_mem_take_of_mem_drop hsorted hpTake hdrop
        have hpL := List.mem_of_mem_take hpTake
        have hpR := hperm.mem_iff.mp hpL
        obtain ⟨_, hp2, _⟩ := hshape p hpR
        rw [← hp2]
        exact hrel

/-- Concrete file used by the C7 witness. -/
def c7AuthFile : CodeFile :=
  { filePath := "/tmp/r/src/auth.ts"
    relativePath := "src/auth.ts"
    content := "function auth() checks auth twice for auth"
    extension := ".ts"
    size := 42 }

/-- Concrete issue used by the C7 witness. -/
def c7Issue : GitHubIssue :=
  { id := 5
    number := 3
    title := "auth broken"
    body := "auth fails in the .ts file"
    state := IssueState.open
    labels := []
    createdAt := ""
    updatedAt := ""
    author := "a"
    url := ""
    comments := [] }

/-- Witness for C7 on a concrete issue and a word-character term: the
returned list is capped at 10 and the score matches the claim's formula. -/
theorem c7_witness :
    fileRelevanceScore ["auth"] c7Issue c7AuthFile =
      specRelevanceScore ["auth"] c7Issue c7AuthFile ∧
    (findRelatedFiles ["auth"] c7Issue [c7AuthFile]).length ≤ 10 :=
  ⟨(c7_findRelatedFiles_scoring ["auth"] c7Issue [c7AuthFile]
      (by decide) (by decide)).1 c7AuthFile,
   (c7_findRelatedFiles_scoring ["auth"] c7Issue [c7AuthFile]
      (by decide) (by decide)).2.1⟩

/-- Concrete dotted search term scenario refuting C7 as frozen.  The
file-path pattern of `extractSearchTerms` emits dotted tokens such as
`auth.ts` whenever the issue text mentions a file name; the source
interpolates the token into `new RegExp("\\b" + term + "\\b", "g")`, where
`.` matches any character. -/
def c7DotIssue : GitHubIssue :=
  { id := 9
    number := 4
    title := "auth.ts fails"
    body := ""
    state := IssueState.open
    labels := []
    createdAt := ""
    updatedAt := ""
    author := "a"
    url := ""
    comments := [] }

/-- Concrete file whose content holds `auth_ts` — no literal occurrence of
the term `auth.ts`, but a `.`-wildcard regex match. -/
def c7DotFile : CodeFile :=
  { filePath := "/tmp/r/doc/notes.md"
    relativePath := "doc/notes.md"
    content := "the auth_ts module"
    extension := ".md"
    size := 18 }

/-- C7 counterexample: for the extracted term `auth.ts` the claim's formula
gives this file a relevance score of 0 (no path match, no literal whole-word
occurrence, no extension bonus) and therefore predicts it never appears in
`relatedFiles`; the source's interpolated regex lets `.` match `_`, scores
the file 2, and returns it. -/
theorem c7_counterexample :
    specRelevanceScore ["auth.ts"] c7DotIssue c7DotFile = 0 ∧
    fileRelevanceScore ["auth.ts"] c7DotIssue c7DotFile = 2 ∧
    findRelatedFiles ["auth.ts"] c7DotIssue [c7DotFile] = [c7DotFile] :=
  ⟨by decide, by decide, by decide⟩
